import Mathlib

/-
Shallow embedding of the Telegram Scheduled Messages Bot (Google Apps Script).
Strings are modelled as List Char; JS numbers that can be NaN are modelled as
Option Int (none = NaN); JS Date objects as Option DateRec (none = Invalid
Date, which is a truthy object in JS).  The script runs in a single time zone;
instants are modelled by their local calendar components and an epoch-style
millisecond count derived from them.
-/

namespace TgBot

/-- JS whitespace class for the patterns used in the script (space, tab, LF, CR). -/
def isWs (c : Char) : Bool := c == ' ' || c == '\t' || c == '\n' || c == '\r'

/-- Lowercasing as used by String.prototype.toLowerCase on the characters this
script manipulates: ASCII letters plus the German capital umlauts that occur in
its keyword lists. -/
def jsToLower (c : Char) : Char :=
  if 'A' ≤ c && c ≤ 'Z' then Char.ofNat (c.toNat + 32)
  else if c == 'Ä' then 'ä' else if c == 'Ö' then 'ö' else if c == 'Ü' then 'ü'
  else c

def lowerStr (s : List Char) : List Char := s.map jsToLower

/-- String.prototype.trim. -/
def trimStr (s : List Char) : List Char :=
  ((s.dropWhile isWs).reverse.dropWhile isWs).reverse

def collapseGo : Bool → List Char → List Char
  | _, [] => []
  | prevWs, c :: rest =>
    if isWs c then
      if prevWs then collapseGo true rest else ' ' :: collapseGo true rest
    else c :: collapseGo false rest

/-- replace(/\s+/g, ' '): every run of whitespace becomes a single space. -/
def collapseWs (s : List Char) : List Char := collapseGo false s

/-- hay.includes(needle), JS substring containment. -/
def containsSub (needle : List Char) : List Char → Bool
  | [] => needle.isPrefixOf []
  | c :: t => needle.isPrefixOf (c :: t) || containsSub needle t

def endsWith (s suffix : List Char) : Bool := suffix.isSuffixOf s

/-- Decimal rendering of a natural number, as JS Number.prototype.toString. -/
def natToChars (n : Nat) : List Char := Nat.toDigits 10 n

def intToChars (i : Int) : List Char :=
  if i < 0 then '-' :: natToChars (-i).toNat else natToChars i.toNat

/-- JS numbers that may be NaN: none is NaN. -/
abbrev JInt := Option Int

def jintToChars : JInt → List Char
  | none => "NaN".toList
  | some i => intToChars i

def jSub : JInt → JInt → JInt
  | some a, some b => some (a - b)
  | _, _ => none

/-- x >= b with NaN on the left comparing false, as in JS. -/
def jGe (a : JInt) (b : Int) : Bool :=
  match a with
  | some x => decide (b ≤ x)
  | none => false

/-- Strict equality === between possibly-NaN numbers; NaN === anything is false. -/
def jEq : JInt → JInt → Bool
  | some x, some y => decide (x = y)
  | _, _ => false

def isDigit (c : Char) : Bool := '0' ≤ c && c ≤ '9'

def digitsToNat : List Char → Nat
  | [] => 0
  | c :: t => digitsToNatGo (c.toNat - 48) t
where digitsToNatGo (acc : Nat) : List Char → Nat
  | [] => acc
  | c :: t => digitsToNatGo (acc * 10 + (c.toNat - 48)) t

/-- parseInt: skip leading whitespace, optional sign, longest leading digit run;
NaN (none) when no digits are found. -/
def jsParseInt (s : List Char) : JInt :=
  let t := s.dropWhile isWs
  match t with
  | '-' :: rest =>
    let ds := rest.takeWhile isDigit
    if ds.isEmpty then none else some (-(digitsToNat ds : Int))
  | '+' :: rest =>
    let ds := rest.takeWhile isDigit
    if ds.isEmpty then none else some (digitsToNat ds : Int)
  | _ =>
    let ds := t.takeWhile isDigit
    if ds.isEmpty then none else some (digitsToNat ds : Int)

/-- Calendar components of a valid JS Date, in the script time zone.
month is 0-based as in JS getMonth. -/
structure DateRec where
  year : Int
  month : Int
  day : Int
  hour : Int
  minute : Int
  sec : Int
  msec : Int
deriving DecidableEq

/-- Days from the civil epoch 1970-01-01 (month argument 1-based), the standard
days-from-civil algorithm with floor division so it is total over Int. -/
def daysFromCivil (y m d : Int) : Int :=
  let y2 := if m ≤ 2 then y - 1 else y
  let era := Int.fdiv y2 400
  let yoe := y2 - era * 400
  let mp := if m > 2 then m - 3 else m + 9
  let doy := Int.fdiv (153 * mp + 2) 5 + d - 1
  let doe := yoe * 365 + Int.fdiv yoe 4 - Int.fdiv yoe 100 + doy
  era * 146097 + doe - 719468

/-- Date.prototype.getTime, from the stored components (single-zone model). -/
def getTime (r : DateRec) : Int :=
  daysFromCivil r.year (r.month + 1) r.day * 86400000
    + r.hour * 3600000 + r.minute * 60000 + r.sec * 1000 + r.msec

/-- Date.prototype.getDay: 0 = Sunday.  1970-01-01 was a Thursday (4). -/
def dayOfWeek (r : DateRec) : Int :=
  Int.emod (daysFromCivil r.year (r.month + 1) r.day + 4) 7

/-- A JS Date object: none is an Invalid Date (its getters return NaN, but the
object itself is truthy). -/
abbrev JSDate := Option DateRec

def jsGetTime (d : JSDate) : JInt := d.map getTime
def jsYear (d : JSDate) : JInt := d.map (fun r => r.year)
def jsMonth (d : JSDate) : JInt := d.map (fun r => r.month)
def jsDayOfMonth (d : JSDate) : JInt := d.map (fun r => r.day)
def jsHours (d : JSDate) : JInt := d.map (fun r => r.hour)
def jsMinutes (d : JSDate) : JInt := d.map (fun r => r.minute)
def jsGetDay (d : JSDate) : JInt := d.map dayOfWeek

/-- new Date(y, mo, d, h, mi): any NaN component yields an Invalid Date
(the script only calls this with getter outputs of real dates, so no
out-of-range normalization is needed). -/
def mkDate5 (y mo d h mi : JInt) : JSDate :=
  match y, mo, d, h, mi with
  | some y, some mo, some d, some h, some mi =>
    some ⟨y, mo, d, h, mi, 0, 0⟩
  | _, _, _, _, _ => none

/-- setSeconds(0, 0); an Invalid Date stays invalid. -/
def setSec0 (d : JSDate) : JSDate := d.map (fun r => { r with sec := 0, msec := 0 })

def take2Digits : List Char → Option (Nat × List Char)
  | a :: b :: rest => if isDigit a && isDigit b then some (digitsToNat [a, b], rest) else none
  | _ => none

def take4Digits : List Char → Option (Nat × List Char)
  | a :: b :: c :: d :: rest =>
    if isDigit a && isDigit b && isDigit c && isDigit d then
      some (digitsToNat [a, b, c, d], rest)
    else none
  | _ => none

def parseHm (y mo d : Nat) : List Char → JSDate
  | rest =>
    match take2Digits rest with
    | none => none
    | some (h, r1) =>
      match r1 with
      | ':' :: r2 =>
        match take2Digits r2 with
        | none => none
        | some (mi, r3) =>
          let mk (s : Nat) : JSDate :=
            if 1 ≤ mo && mo ≤ 12 && 1 ≤ d && d ≤ 31 && h ≤ 23 && mi ≤ 59 && s ≤ 59 then
              some ⟨(y : Int), (mo : Int) - 1, (d : Int), (h : Int), (mi : Int), (s : Int), 0⟩
            else none
          match r3 with
          | [] => mk 0
          | ':' :: r4 =>
            match take2Digits r4 with
            | some (s, []) => mk s
            | _ => none
          | _ => none
      | _ => none

/-- Models the host (V8) Date parser on the ISO-like strings
YYYY-MM-DD[ or T]HH:MM[:SS] that a spreadsheet cell can carry; as in JS,
any other text (for example values prefixed with BLOCKED: or RATE_LIMITED:)
yields an Invalid Date rather than raising. -/
def jsParseDate (s : List Char) : JSDate :=
  match take4Digits s with
  | none => none
  | some (y, r1) =>
    match r1 with
    | '-' :: r2 =>
      match take2Digits r2 with
      | none => none
      | some (mo, r3) =>
        match r3 with
        | '-' :: r4 =>
          match take2Digits r4 with
          | none => none
          | some (d, r5) =>
            match r5 with
            | [] =>
              if 1 ≤ mo && mo ≤ 12 && 1 ≤ d && d ≤ 31 then
                some ⟨(y : Int), (mo : Int) - 1, (d : Int), 0, 0, 0, 0⟩
              else none
            | 'T' :: r6 => parseHm y mo d r6
            | ' ' :: r6 => parseHm y mo d r6
            | _ => none
        | _ => none
    | _ => none

def pad2 (n : Nat) : List Char :=
  if n < 10 then '0' :: natToChars n else natToChars n

def pad3 (n : Nat) : List Char :=
  if n < 10 then '0' :: '0' :: natToChars n
  else if n < 100 then '0' :: natToChars n
  else natToChars n

def pad4 (n : Nat) : List Char :=
  if n < 10 then '0' :: '0' :: '0' :: natToChars n
  else if n < 100 then '0' :: '0' :: natToChars n
  else if n < 1000 then '0' :: natToChars n
  else natToChars n

/-- Date.prototype.toISOString of a valid date (single-zone model, so the
local components are rendered directly with a Z suffix). -/
def isoChars (r : DateRec) : List Char :=
  pad4 r.year.toNat ++ "-".toList ++ pad2 (r.month + 1).toNat ++ "-".toList
    ++ pad2 r.day.toNat ++ "T".toList ++ pad2 r.hour.toNat ++ ":".toList
    ++ pad2 r.minute.toNat ++ ":".toList ++ pad2 r.sec.toNat ++ ".".toList
    ++ pad3 r.msec.toNat ++ "Z".toList

/-- A spreadsheet cell as returned by getValues: an empty cell (empty string,
falsy), a boolean (checkboxes), a text string, or a Date. -/
inductive Cell
  | empty
  | b (v : Bool)
  | s (t : List Char)
  | d (dt : DateRec)
deriving DecidableEq, Inhabited

/-- JS truthiness of a cell value: empty string and false are falsy; every
Date object (even an Invalid Date) is truthy. -/
def Cell.truthy : Cell → Bool
  | .empty => false
  | .b v => v
  | .s t => !t.isEmpty
  | .d _ => true

-- ===========================================================================
-- CONFIGURATION (montagtontag_appscript.js / part_000 lines 44-153)
-- ===========================================================================

def ALLOWED_DOMAINS : List (List Char) := []

def BLOCKED_DOMAINS : List (List Char) :=
  ["bit.ly".toList, "tinyurl.com".toList, "t.co".toList, "goo.gl".toList,
   "short.link".toList, "rebrand.ly".toList, "cutt.ly".toList, "t.me".toList]

def STRICT_MODE : Bool := false

def MAX_MESSAGES_PER_HOUR : Int := 3
def MAX_MESSAGES_PER_DAY : Int := 5
def MAX_MESSAGE_LENGTH : Nat := 4096
def MAX_URLS_PER_MESSAGE : Nat := 10
def MAX_SUSPICIOUS_URLS : Nat := 1

def SUSPICIOUS_KEYWORDS : List (List Char) :=
  ["click here".toList, "limited time".toList, "act now".toList, "urgent".toList,
   "free money".toList, "guaranteed".toList, "no risk".toList, "limited offer".toList,
   "exclusive deal".toList, "act fast".toList, "don\x27t miss out".toList,
   "one time only".toList,
   "wichtiges update".toList, "nutzen sie die gelegenheit".toList,
   "solange sie noch besteht".toList, "finanzielles wachstum".toList,
   "verpassen sie sie nicht".toList, "bevor der link abläuft".toList,
   "entscheidender wendepunkt".toList, "finanzielle freiheit".toList,
   "passives einkommen".toList, "jetzt handeln".toList, "begrenzte plätze".toList,
   "exklusives angebot".toList, "schnell reich".toList, "geld verdienen".toList]

def REQUIRE_KEYWORD_VALIDATION : Bool := true

def REQUIRED_KEYWORDS : List (List Char) :=
  ["test".toList, "montag".toList, "montagtontag".toList, "tontag".toList,
   "glasiertag".toList, "luma.com".toList, "melde dich".toList, "zeitslot".toList,
   "aufbau".toList, "abbau".toList, "stornieren".toList, "fertigen werke".toList,
   "helfende hände".toList, "töpfern".toList, "glasieren".toList]

-- ===========================================================================
-- SECURITY & VALIDATION FUNCTIONS
-- ===========================================================================

structure KeywordCheck where
  hasRequired : Bool
  foundKeywords : List (List Char)
deriving DecidableEq

/-- hasRequiredKeywords (lines 356-380): case-insensitive substring match of
each required keyword against the message; at least one match is required.
The guard for a falsy or non-string argument is the isEmpty branch (within
the validator this function only receives nonempty strings). -/
def hasRequiredKeywords (text : List Char) : KeywordCheck :=
  if text.isEmpty then ⟨false, []⟩
  else
    let lowerText := lowerStr text
    let found := REQUIRED_KEYWORDS.filter (fun kw => containsSub (lowerStr kw) lowerText)
    ⟨!found.isEmpty, found⟩

def isAlpha (c : Char) : Bool := ('a' ≤ c && c ≤ 'z') || ('A' ≤ c && c ≤ 'Z')
def isAlnumDash (c : Char) : Bool := isAlpha c || isDigit c || c == '-'
def isUrlChar (c : Char) : Bool := !isWs c

/-- Length of the leftmost match of the alternative https?:\/\/[^\s]+ at the
head of the input (case-insensitive), if any. -/
def matchHttp (cs : List Char) : Option Nat :=
  match cs with
  | c1 :: c2 :: c3 :: c4 :: rest =>
    if jsToLower c1 == 'h' && jsToLower c2 == 't' && jsToLower c3 == 't' && jsToLower c4 == 'p' then
      match rest with
      | c5 :: ':' :: '/' :: '/' :: r2 =>
        if jsToLower c5 == 's' then
          let k := (r2.takeWhile isUrlChar).length
          if k == 0 then none else some (8 + k)
        else none
      | ':' :: '/' :: '/' :: r2 =>
        let k := (r2.takeWhile isUrlChar).length
        if k == 0 then none else some (7 + k)
      | _ => none
    else none
  | _ => none

/-- Length of a match of www\.[^\s]+ at the head of the input. -/
def matchWww (cs : List Char) : Option Nat :=
  match cs with
  | c1 :: c2 :: c3 :: '.' :: rest =>
    if jsToLower c1 == 'w' && jsToLower c2 == 'w' && jsToLower c3 == 'w' then
      let k := (rest.takeWhile isUrlChar).length
      if k == 0 then none else some (4 + k)
    else none
  | _ => none

/-- Length of a match of [a-zA-Z0-9-]+\.[a-zA-Z]{2,}[^\s]* at the head of the
input.  The first class excludes the dot, so the greedy run is maximal and no
backtracking can succeed when the next character is not a dot. -/
def matchBare (cs : List Char) : Option Nat :=
  let run1 := cs.takeWhile isAlnumDash
  if run1.isEmpty then none
  else
    match cs.drop run1.length with
    | '.' :: rest =>
      let run2 := rest.takeWhile isAlpha
      if run2.length < 2 then none
      else
        let run3 := (rest.drop run2.length).takeWhile isUrlChar
        some (run1.length + 1 + run2.length + run3.length)
    | _ => none

/-- One step of the URL regex: alternatives tried in source order. -/
def matchUrlAt (cs : List Char) : Option Nat :=
  match matchHttp cs with
  | some n => some n
  | none =>
    match matchWww cs with
    | some n => some n
    | none => matchBare cs

/-- Global scan of text.match(urlPattern): leftmost matches, resuming after
each match, advancing one character where no match starts. -/
def scanUrls : Nat → List Char → List (List Char)
  | 0, _ => []
  | _, [] => []
  | fuel + 1, c :: t =>
    match matchUrlAt (c :: t) with
    | some len => (c :: t).take len :: scanUrls fuel ((c :: t).drop len)
    | none => scanUrls fuel t

def trailingPunct (c : Char) : Bool :=
  c == '.' || c == ',' || c == ';' || c == ':' || c == '!' || c == '?'

/-- Per-match cleanup in extractUrls: strip trailing punctuation, prepend
https:// when no (case-sensitive) scheme is present, lowercase. -/
def cleanUrl (u : List Char) : List Char :=
  let u1 := (u.reverse.dropWhile trailingPunct).reverse
  let u2 :=
    if ("http://".toList).isPrefixOf u1 || ("https://".toList).isPrefixOf u1 then u1
    else "https://".toList ++ u1
  lowerStr u2

/-- extractUrls (lines 387-404). -/
def extractUrls (text : List Char) : List (List Char) :=
  if text.isEmpty then []
  else (scanUrls text.length text).map cleanUrl

/-- Global replace of /https?:\/\/[^\s]+/gi with the empty string. -/
def stripHttpUrls : Nat → List Char → List Char
  | 0, _ => []
  | _, [] => []
  | fuel + 1, c :: t =>
    match matchHttp (c :: t) with
    | some len => stripHttpUrls fuel ((c :: t).drop len)
    | none => c :: stripHttpUrls fuel t

/-- hasExcessiveCaps (lines 411-423).  The IEEE comparison
capsCount / length >= 0.5 on these integer ranges is exactly
2 * capsCount >= length. -/
def hasExcessiveCaps (text : List Char) : Bool :=
  if text.isEmpty then false
  else
    let cleanText := (stripHttpUrls text.length text).filter (fun c => !isWs c)
    if cleanText.isEmpty then false
    else
      let capsCount := (cleanText.filter (fun c => 'A' ≤ c && c ≤ 'Z')).length
      decide (cleanText.length ≤ 2 * capsCount)

def isPunct (c : Char) : Bool := c == '!' || c == '?' || c == '.'

/-- Test of /[!?.]{3,}/ : three consecutive punctuation characters. -/
def hasPunctRun3 : List Char → Bool
  | a :: b :: c :: t => (isPunct a && isPunct b && isPunct c) || hasPunctRun3 (b :: c :: t)
  | _ => false

/-- hasExcessivePunctuation (lines 430-443).  The IEEE comparison
punctCount / length > 0.1 on these integer ranges is exactly
10 * punctCount > length. -/
def hasExcessivePunctuation (text : List Char) : Bool :=
  if text.isEmpty then false
  else if hasPunctRun3 text then true
  else
    let punctCount := (text.filter isPunct).length
    decide (text.length < 10 * punctCount)

/-- Helper: some run of at least n consecutive characters satisfying p. -/
def hasRunGeGo (p : Char → Bool) (n : Nat) : Nat → List Char → Bool
  | cnt, [] => decide (n ≤ cnt)
  | cnt, c :: t =>
    if p c then decide (n ≤ cnt + 1) || hasRunGeGo p n (cnt + 1) t
    else hasRunGeGo p n 0 t

def hasRunGe (p : Char → Bool) (n : Nat) (l : List Char) : Bool :=
  hasRunGeGo p n 0 l

def isLineTerm (c : Char) : Bool := c == '\n' || c == '\r'

/-- Test of /(.)\1{4,}/ : five consecutive equal characters; the dot does not
match line terminators. -/
def hasRepeat5 : List Char → Bool
  | a :: b :: c :: d :: e :: t =>
    (!isLineTerm a && a == b && b == c && c == d && d == e)
      || hasRepeat5 (b :: c :: d :: e :: t)
  | _ => false

structure PatternCheck where
  hasSuspicious : Bool
  patterns : List (List Char)
deriving DecidableEq

/-- hasSuspiciousPatterns (lines 450-481): keyword hits are recorded one by
one, then a 10+ digit run, then 5+ repeats of one character. -/
def hasSuspiciousPatterns (text : List Char) : PatternCheck :=
  if text.isEmpty then ⟨false, []⟩
  else
    let lowerText := lowerStr text
    let kw := (SUSPICIOUS_KEYWORDS.filter (fun k => containsSub k lowerText)).map
      (fun k => "Suspicious keyword: \"".toList ++ k ++ "\"".toList)
    let p1 := kw ++ (if hasRunGe isDigit 10 text then ["Excessive numbers detected".toList] else [])
    let patterns := p1 ++ (if hasRepeat5 text then ["Suspicious character repetition".toList] else [])
    ⟨!patterns.isEmpty, patterns⟩

/-- extractDomain (lines 488-501): strip scheme and www., cut at the first of
slash, question mark, hash, colon, lowercase.  Nothing in the body can throw,
so the catch branch returning null is dead; the function is total here. -/
def extractDomain (url : List Char) : List Char :=
  let d0 :=
    if ("http://".toList).isPrefixOf url then url.drop 7
    else if ("https://".toList).isPrefixOf url then url.drop 8
    else url
  let d1 := if ("www.".toList).isPrefixOf d0 then d0.drop 4 else d0
  let d2 := d1.takeWhile (fun c => c != '/')
  let d3 := d2.takeWhile (fun c => c != '?')
  let d4 := d3.takeWhile (fun c => c != '#')
  let d5 := d4.takeWhile (fun c => c != ':')
  lowerStr d5

/-- The validation verdict built by validateMessage.  The JS object sometimes
carries the extra properties allowedDomains and missingKeywords; their absence
is modelled by the defaults none and false. -/
structure ValidationResult where
  isValid : Bool
  reason : List Char
  foundUrls : List (List Char)
  blockedDomains : List (List Char)
  validationDetails : List (List Char)
  allowedDomains : Option (List (List Char)) := none
  missingKeywords : Bool := false
deriving DecidableEq

/-- Comma-separated join, as Array.prototype.join. -/
def joinSep (sep : List Char) : List (List Char) → List Char
  | [] => []
  | [x] => x
  | x :: xs => x ++ sep ++ joinSep sep xs

def joinComma := joinSep ", ".toList
def joinSemi := joinSep "; ".toList

/-- The domains pushed by the blacklist double loop of validateMessage
(lines 677-683): for each domain, one push per blocked domain it equals or is
a dot-suffix of. -/
def blockedOf (domains : List (List Char)) : List (List Char) :=
  (domains.map (fun dom =>
    (BLOCKED_DOMAINS.filter (fun bd => dom == bd || endsWith dom ('.' :: bd))).map
      (fun _ => dom))).flatten

def domainAllowed (dom : List Char) : Bool :=
  ALLOWED_DOMAINS.any (fun ad => dom == ad || endsWith dom ('.' :: ad))

def kwDetail (kc : KeywordCheck) : List Char :=
  "Found required keywords: ".toList ++ joinComma kc.foundKeywords

def capsDetail : List Char := "Excessive capitalization detected".toList
def punctDetail : List Char := "Excessive punctuation detected".toList

/-- The main body of validateMessage for a nonempty string message
(lines 573-757), with the sequence of early returns rendered as nested
conditionals and the validationDetails pushes as successive list extensions.
message.length counts code points here where JS counts UTF-16 units; the two
agree on every text without astral-plane characters. -/
def validateBody (message : List Char) : ValidationResult :=
  if message.length > MAX_MESSAGE_LENGTH then
    { isValid := false
      reason := "Message too long: ".toList ++ natToChars message.length
        ++ " characters (limit: 4096)".toList
      foundUrls := [], blockedDomains := []
      validationDetails := ["Length check failed: ".toList ++ natToChars message.length
        ++ " > 4096".toList] }
  else
    let kc := hasRequiredKeywords message
    if REQUIRE_KEYWORD_VALIDATION && !kc.hasRequired then
      { isValid := false
        reason := "Message does not contain any required keywords. Expected keywords include: ".toList
          ++ joinComma (REQUIRED_KEYWORDS.take 5) ++ "...".toList
        foundUrls := [], blockedDomains := []
        validationDetails := ["Missing required keywords".toList]
        missingKeywords := true }
    else
      let d1 : List (List Char) :=
        if REQUIRE_KEYWORD_VALIDATION then [kwDetail kc] else []
      let urls := extractUrls message
      if urls.length > MAX_URLS_PER_MESSAGE then
        { isValid := false
          reason := "Too many URLs detected: ".toList ++ natToChars urls.length
            ++ " (limit: 10)".toList
          foundUrls := urls, blockedDomains := []
          validationDetails := d1 ++ ["Too many URLs: ".toList ++ natToChars urls.length
            ++ " (limit: 10)".toList] }
      else
        let d2 := d1 ++
          (if urls.length > MAX_SUSPICIOUS_URLS then
            ["Suspicious number of URLs: ".toList ++ natToChars urls.length] else [])
        if urls.isEmpty then
          if hasExcessiveCaps message then
            { isValid := false
              reason := "Excessive capitalization detected (potential spam)".toList
              foundUrls := [], blockedDomains := []
              validationDetails := d2 ++ [capsDetail] }
          else if hasExcessivePunctuation message then
            { isValid := false
              reason := "Excessive punctuation detected (potential spam)".toList
              foundUrls := [], blockedDomains := []
              validationDetails := d2 ++ [punctDetail] }
          else
            let pc := hasSuspiciousPatterns message
            if pc.hasSuspicious then
              { isValid := false
                reason := "Suspicious patterns detected: ".toList ++ joinSemi pc.patterns
                foundUrls := [], blockedDomains := []
                validationDetails := d2 ++ pc.patterns }
            else
              -- note: this success verdict returns a fresh empty details list
              { isValid := true
                reason := "No URLs found, content validated".toList
                foundUrls := [], blockedDomains := [], validationDetails := [] }
        else
          let domains := urls.map extractDomain
          let blocked := blockedOf domains
          if !blocked.isEmpty then
            { isValid := false
              reason := "Blocked domain(s) detected: ".toList ++ joinComma blocked
              foundUrls := urls, blockedDomains := blocked
              validationDetails := d2 ++ ["Blocked domains: ".toList ++ joinComma blocked] }
          else if STRICT_MODE && !ALLOWED_DOMAINS.isEmpty then
            match (domains.filter (fun dom => !domainAllowed dom)).head? with
            | some dom =>
              { isValid := false
                reason := "Domain not in whitelist: ".toList ++ dom
                foundUrls := urls, blockedDomains := []
                validationDetails := d2 ++ ["Domain not in whitelist: ".toList ++ dom]
                allowedDomains := some (domains.takeWhile domainAllowed) }
            | none => validateUrlTail message urls domains d2
          else validateUrlTail message urls domains d2
where
  /-- The trailing spam checks for messages whose URLs passed the domain
  filters (lines 722-757): caps and punctuation hits are recorded only;
  two or more hits from hasSuspiciousPatterns block the message. -/
  validateUrlTail (message : List Char) (urls domains d2 : List (List Char)) :
      ValidationResult :=
    let d3 := d2 ++ (if hasExcessiveCaps message then [capsDetail] else [])
    let d4 := d3 ++ (if hasExcessivePunctuation message then [punctDetail] else [])
    let pc := hasSuspiciousPatterns message
    let d5 := d4 ++ (if pc.hasSuspicious then pc.patterns else [])
    if pc.hasSuspicious && pc.patterns.length ≥ 2 then
      { isValid := false
        reason := "Multiple suspicious patterns detected: ".toList ++ joinSemi pc.patterns
        foundUrls := urls, blockedDomains := []
        validationDetails := d5 }
    else
      { isValid := true
        reason := "URLs validated: ".toList ++ joinComma domains
        foundUrls := urls, blockedDomains := []
        validationDetails := d5
        allowedDomains := some domains }

/-- validateMessage (lines 562-757).  The argument is a cell value: the guard
rejects anything that is falsy or not a string (lines 563-571). -/
def validateMessage (message : Cell) : ValidationResult :=
  match message with
  | .s t =>
    if t.isEmpty then
      { isValid := false, reason := "Empty or invalid message".toList
        foundUrls := [], blockedDomains := [], validationDetails := [] }
    else validateBody t
  | _ =>
    { isValid := false, reason := "Empty or invalid message".toList
      foundUrls := [], blockedDomains := [], validationDetails := [] }

-- ===========================================================================
-- DUPLICATE CONTENT DETECTOR
-- ===========================================================================

/-- One spreadsheet row; the fields are columns A-E of the sheet
(COL_DATETIME, COL_MESSAGE, COL_REPEAT, COL_ENABLED, COL_LAST_SENT). -/
structure Row where
  dtCell : Cell
  msgCell : Cell
  repCell : Cell
  enCell : Cell
  lastCell : Cell
deriving DecidableEq, Inhabited

structure DupResult where
  isDuplicate : Bool
  reason : List Char
deriving DecidableEq

/-- value.toString().startsWith(p) for a cell: the rendering of a Date or
boolean never starts with ERROR: or BLOCKED:. -/
def cellStartsWith (c : Cell) (p : List Char) : Bool :=
  match c with
  | .s t => p.isPrefixOf t
  | _ => false

/-- new Date(cellValue): a Date cell is copied, a string is parsed (never
raising: bad text gives an Invalid Date), the empty cell is like new Date(..)
of an empty string, Invalid.  A boolean cell would coerce to a millisecond
count in JS; no code path of the claims reaches that case and it is modelled
as Invalid here. -/
def cellToDate (c : Cell) : JSDate :=
  match c with
  | .d dt => some dt
  | .s t => jsParseDate t
  | .b _ => none
  | .empty => none

def normMsg (m : List Char) : List Char := collapseWs (lowerStr (trimStr m))

/-- The row loop of detectDuplicateContent, starting at index 1, skipping the
index currentRowIndex + 1.  A truthy non-string message cell would make
the source raise a TypeError at .trim() (caught only by the top-level
handler); no claim exercises that case and such rows are skipped here. -/
def dupLoop (norm : List Char) (cutoff : Int) (currentRowIndex : Int) :
    Int → List Row → DupResult
  | _, [] => ⟨false, []⟩
  | i, r :: rest =>
    if i == currentRowIndex + 1 then dupLoop norm cutoff currentRowIndex (i + 1) rest
    else
      let cont := dupLoop norm cutoff currentRowIndex (i + 1) rest
      match r.msgCell with
      | .s t =>
        if t.isEmpty then cont
        else
          let normOther := normMsg t
          if norm == normOther && (r.lastCell).truthy then
            let lastSentDate := cellToDate r.lastCell
            if jGe (jsGetTime lastSentDate) cutoff
                && !cellStartsWith r.lastCell ("ERROR:".toList)
                && !cellStartsWith r.lastCell ("BLOCKED:".toList) then
              ⟨true, "Duplicate message detected: Same content was sent at ".toList
                ++ (match lastSentDate with | some d => isoChars d | none => []) ⟩
            else cont
          else cont
      | _ => cont

/-- detectDuplicateContent (lines 511-555).  now is the fresh Date the
function takes itself; the 24-hour cutoff and the comparisons are on
millisecond values.  The !sheetData part of the source guard is dropped: a JS
array (even an empty one) is always truthy. -/
def detectDuplicateContent (message : List Char) (sheetData : List Row)
    (currentRowIndex : Int) (now : DateRec) : DupResult :=
  if message.isEmpty || currentRowIndex < 0 then ⟨false, []⟩
  else
    let cutoff := getTime now - 24 * 60 * 60 * 1000
    let norm := normMsg message
    dupLoop norm cutoff currentRowIndex 1 (sheetData.drop 1)

-- ===========================================================================
-- RATE LIMITER
-- ===========================================================================

/-- The script cache: association list of key, value and ttl seconds. -/
abbrev Cache := List (List Char × List Char × Nat)

def cacheGet (c : Cache) (k : List Char) : Option (List Char) :=
  (c.find? (fun e => e.1 == k)).map (fun e => e.2.1)

def cachePut (c : Cache) (k v : List Char) (ttl : Nat) : Cache :=
  (k, v, ttl) :: c.filter (fun e => !(e.1 == k))

def hourKeyOf (now : DateRec) : List Char :=
  "rate_hour_".toList ++ intToChars now.year ++ "_".toList ++ intToChars now.month
    ++ "_".toList ++ intToChars now.day ++ "_".toList ++ intToChars now.hour

def dayKeyOf (now : DateRec) : List Char :=
  "rate_day_".toList ++ intToChars now.year ++ "_".toList ++ intToChars now.month
    ++ "_".toList ++ intToChars now.day

/-- parseInt(cache.get(key) or else the string 0): a missing key (or the falsy
empty string) counts as zero; junk in the cache parses to NaN. -/
def bucketCount (c : Cache) (k : List Char) : JInt :=
  jsParseInt (match cacheGet c k with
    | none => "0".toList
    | some v => if v.isEmpty then "0".toList else v)

structure RateCheck where
  isAllowed : Bool
  reason : List Char
  hourCount : JInt
  dayCount : JInt
deriving DecidableEq

/-- checkRateLimit (lines 166-204): the cache is threaded through so that the
absence of writes is a statement, not a typing accident; the body only reads. -/
def checkRateLimit (now : DateRec) (cache : Cache) : RateCheck × Cache :=
  let hourCount := bucketCount cache (hourKeyOf now)
  let dayCount := bucketCount cache (dayKeyOf now)
  if jGe hourCount MAX_MESSAGES_PER_HOUR then
    ({ isAllowed := false
       reason := "Rate limit exceeded: ".toList ++ jintToChars hourCount
         ++ " messages sent this hour (limit: 3)".toList
       hourCount := hourCount, dayCount := dayCount }, cache)
  else if jGe dayCount MAX_MESSAGES_PER_DAY then
    ({ isAllowed := false
       reason := "Rate limit exceeded: ".toList ++ jintToChars dayCount
         ++ " messages sent today (limit: 5)".toList
       hourCount := hourCount, dayCount := dayCount }, cache)
  else
    ({ isAllowed := true
       reason := "Rate limit OK (".toList ++ jintToChars hourCount
         ++ "/3 per hour, ".toList ++ jintToChars dayCount ++ "/5 per day)".toList
       hourCount := hourCount, dayCount := dayCount }, cache)

def jAdd1 : JInt → JInt
  | some x => some (x + 1)
  | none => none

/-- incrementRateLimit (lines 210-229): both buckets incremented and stored
with their ttls: one hour and six hours. -/
def incrementRateLimit (now : DateRec) (cache : Cache) : Cache :=
  let hourCount := bucketCount cache (hourKeyOf now)
  let dayCount := bucketCount cache (dayKeyOf now)
  let c1 := cachePut cache (hourKeyOf now) (jintToChars (jAdd1 hourCount)) (60 * 60)
  cachePut c1 (dayKeyOf now) (jintToChars (jAdd1 dayCount)) (6 * 60 * 60)

-- ===========================================================================
-- MAIN SCHEDULER (sendScheduledMessages, lines 1290-1548)
-- ===========================================================================

/-- The enabled check of lines 1339-1345: true boolean, the check-mark string,
or a string spelling yes or true (case-insensitive, trimmed) or containing the
check mark. -/
def isEnabledCell (c : Cell) : Bool :=
  match c with
  | .b v => v
  | .s t =>
    t == "✅".toList
      || trimStr (lowerStr t) == "yes".toList
      || trimStr (lowerStr t) == "true".toList
      || containsSub ("✅".toList) t
  | _ => false

/-- row[COL_REPEAT] or the empty string (line 1317).  A truthy non-string
repeat cell would make toLowerCase() raise in JS; no claim exercises that and
falsy cells give the empty string, so non-strings are mapped to it. -/
def repeatOf (c : Cell) : List Char :=
  match c with
  | .s t => t
  | _ => []

/-- The Last Sent parsing of lines 1321-1334: a falsy cell leaves null; a
string prefixed ERROR: becomes null; anything else goes through new Date,
which never throws: unparseable text yields a truthy Invalid Date, so the
catch branch that would reset to null is dead code.  none models null and
some models a Date object (some none an Invalid Date). -/
def parseLastSent (c : Cell) : Option JSDate :=
  if !c.truthy then none
  else
    match c with
    | .s t => if ("ERROR:".toList).isPrefixOf t then none else some (jsParseDate t)
    | .d dt => some (some dt)
    | _ => some none

/-- The duplicate-send guard of lines 1353-1362: when lastSent is a Date
object, compare now and lastSent truncated to the minute by rebuilding both
with new Date(y, mo, d, h, mi) and testing === on getTime.  For an Invalid
lastSent both getters are NaN, the comparison is false, and the guard does
not skip. -/
def minuteGuardHit (now : DateRec) (lastSent : Option JSDate) : Bool :=
  match lastSent with
  | none => false
  | some ls =>
    let lastSentMinute := mkDate5 (jsYear ls) (jsMonth ls) (jsDayOfMonth ls)
      (jsHours ls) (jsMinutes ls)
    let currentMinute := mkDate5 (some now.year) (some now.month) (some now.day)
      (some now.hour) (some now.minute)
    jEq (jsGetTime currentMinute) (jsGetTime lastSentMinute)

/-- The shouldSend disjunction of lines 1387-1412, over the normalized now,
the (possibly Invalid) scheduled start, the raw repeat text and the parsed
lastSent.  All comparisons against getters of an Invalid start are NaN
comparisons and false. -/
def shouldSendOf (now : DateRec) (start : JSDate) (repRaw : List Char)
    (lastSent : Option JSDate) : Bool :=
  let exactDateMatch := jEq (jsYear start) (some now.year)
    && jEq (jsMonth start) (some now.month)
    && jEq (jsDayOfMonth start) (some now.day)
  let timeMatch := jEq (some now.hour) (jsHours start)
    && jEq (some now.minute) (jsMinutes start)
  let day := dayOfWeek now
  let mDay := now.day
  let month := now.month
  let diffDays : JInt := (jSub (some (getTime now)) (jsGetTime start)).map
    (fun x => Int.fdiv x 86400000)
  let rep := trimStr (lowerStr repRaw)
  let isOneTime := rep == [] || rep == "don\x27t".toList || rep == "don\x27t repeat".toList
  let everyN (n : Int) : Bool :=
    timeMatch && jGe diffDays 0 && jEq (diffDays.map (fun x => Int.tmod x n)) (some 0)
  (isOneTime && exactDateMatch && timeMatch)
    || (rep == "every minute".toList &&
        (match lastSent with
         | none => true
         | some d => jGe (jSub (some (getTime now)) (jsGetTime d)) 60000))
    || (rep == "daily".toList && timeMatch)
    || (rep == "weekly".toList && timeMatch && jEq (some day) (jsGetDay start))
    || (rep == "monthly".toList && timeMatch && jEq (some mDay) (jsDayOfMonth start))
    || (rep == "yearly".toList && timeMatch && jEq (some mDay) (jsDayOfMonth start)
        && jEq (some month) (jsMonth start))
    || (rep == "every 2 days".toList && everyN 2)
    || (rep == "every 3 days".toList && everyN 3)
    || (rep == "every 7 days".toList && everyN 7)
    || (rep == "every 14 days".toList && everyN 14)
    || (rep == "monday".toList && timeMatch && day == 1)
    || (rep == "tuesday".toList && timeMatch && day == 2)
    || (rep == "wednesday".toList && timeMatch && day == 3)
    || (rep == "thursday".toList && timeMatch && day == 4)
    || (rep == "friday".toList && timeMatch && day == 5)
    || (rep == "saturday".toList && timeMatch && day == 6)
    || (rep == "sunday".toList && timeMatch && day == 0)

/-- The per-row decision of one pass of the main loop. -/
inductive RowOutcome
  | noDatetime
  | skippedDisabledOrEmpty
  | skippedSameMinute
  | notDue
  | typeErrorNonStringMessage
  | blockedDuplicate (reason : List Char)
  | blockedValidation (reason : List Char)
  | rateLimited (reason : List Char)
  | sent
  | sendError
deriving DecidableEq

def RowOutcome.isDupBlocked : RowOutcome → Bool
  | .blockedDuplicate _ => true
  | _ => false

/-- One iteration of the main loop of sendScheduledMessages for the row at
index i of data (data includes the header at index 0), threading the rate
limit cache.  now is the loop instant with seconds zeroed (line 1301); dupNow
and rlNow are the fresh Dates taken inside detectDuplicateContent and the
rate-limit functions; sendOk is the transport collaborator answer
(responseData.ok).  A truthy non-string message cell would raise inside
detectDuplicateContent; that is surfaced as its own outcome. -/
def processRow (now dupNow rlNow : DateRec) (data : List Row) (i : Nat)
    (cache : Cache) (sendOk : Bool) : RowOutcome × Cache :=
  let row := data.getD i default
  if !row.dtCell.truthy then (.noDatetime, cache)
  else
    let start := setSec0 (cellToDate row.dtCell)
    let msg := row.msgCell
    let repRaw := repeatOf row.repCell
    let lastSent := parseLastSent row.lastCell
    if !msg.truthy || !isEnabledCell row.enCell then (.skippedDisabledOrEmpty, cache)
    else if minuteGuardHit now lastSent then (.skippedSameMinute, cache)
    else if !shouldSendOf now start repRaw lastSent then (.notDue, cache)
    else
      match msg with
      | .s mt =>
        let dup := detectDuplicateContent mt data (Int.ofNat i) dupNow
        if dup.isDuplicate then (.blockedDuplicate dup.reason, cache)
        else
          let vr := validateMessage (.s mt)
          if !vr.isValid then (.blockedValidation vr.reason, cache)
          else
            let rlp := checkRateLimit rlNow cache
            if !rlp.1.isAllowed then (.rateLimited rlp.1.reason, rlp.2)
            else if sendOk then (.sent, incrementRateLimit rlNow rlp.2)
            else (.sendError, rlp.2)
      | _ => (.typeErrorNonStringMessage, cache)

-- ===========================================================================
-- THE SPEC-SIDE PIPELINE (for the refinement claim C1)
-- ===========================================================================

/-- Modelled from the spec, section 4.6: stage one skips an entry that is
disabled or has an empty message. -/
def specEntryActive (row : Row) : Bool :=
  row.msgCell.truthy && isEnabledCell row.enCell

/-- Modelled from the spec, section 4.2: the Schedule Evaluator, with the
minute-level duplicate guard applied before any recurrence rule. -/
def specIsDue (now : DateRec) (row : Row) : Bool :=
  !minuteGuardHit now (parseLastSent row.lastCell)
    && shouldSendOf now (setSec0 (cellToDate row.dtCell)) (repeatOf row.repCell)
        (parseLastSent row.lastCell)

/-- Modelled from the spec, section 4.6: the pipeline
skip if disabled or message empty, then Schedule Evaluator, then (if due)
Duplicate Detector, then (if not duplicate) Content Validator, then (if
valid) Rate Limiter check; the first failing stage supplies the block reason
and only passing all four stages sends.  Rows without a scheduled instant are
not entries and are dismissed first; the same-minute guard is the part of the
Schedule Evaluator the spec describes separately. -/
def specDecide (now dupNow rlNow : DateRec) (data : List Row) (i : Nat)
    (cache : Cache) (sendOk : Bool) : RowOutcome :=
  let row := data.getD i default
  if !row.dtCell.truthy then .noDatetime
  else if !specEntryActive row then .skippedDisabledOrEmpty
  else if minuteGuardHit now (parseLastSent row.lastCell) then .skippedSameMinute
  else if !specIsDue now row then .notDue
  else
    match row.msgCell with
    | .s mt =>
      let dup := detectDuplicateContent mt data (Int.ofNat i) dupNow
      if dup.isDuplicate then .blockedDuplicate dup.reason
      else
        let vr := validateMessage (.s mt)
        if !vr.isValid then .blockedValidation vr.reason
        else
          let rl := (checkRateLimit rlNow cache).1
          if !rl.isAllowed then .rateLimited rl.reason
          else if sendOk then .sent
          else .sendError
    | _ => .typeErrorNonStringMessage

-- ===========================================================================
-- Concrete sheets used by the witnesses and counterexamples
-- ===========================================================================

/-- The header row of the sheet (index 0 of getValues). -/
def hdrRow : Row := ⟨.empty, .empty, .empty, .empty, .empty⟩

/-- A normalized evaluation instant, 2025-06-02 12:05 (a Monday). -/
def nowEx : DateRec := ⟨2025, 5, 2, 12, 5, 0, 0⟩

/-- The fresh instant the duplicate detector takes itself, 30 s later. -/
def dupNowEx : DateRec := ⟨2025, 5, 2, 12, 5, 30, 0⟩

/-- The single entry of the C2 sheet: an enabled every-minute row whose own
Last Sent is a valid date five minutes before the evaluation instant. -/
def c2row : Row :=
  ⟨.d ⟨2025, 5, 2, 9, 0, 0, 0⟩, .s "test zeitslot".toList,
   .s "every minute".toList, .b true, .d ⟨2025, 5, 2, 12, 0, 0, 0⟩⟩

/-- The C5 entry: enabled, every minute, Last Sent holding a block marker
that does not parse as a date. -/
def c5row : Row :=
  ⟨.d ⟨2025, 5, 2, 9, 0, 0, 0⟩, .s "test".toList, .s "every minute".toList,
   .b true, .s "BLOCKED: Duplicate message detected".toList⟩

/-- The same entry with an empty Last Sent cell. -/
def c5rowEmpty : Row :=
  ⟨.d ⟨2025, 5, 2, 9, 0, 0, 0⟩, .s "test".toList, .s "every minute".toList,
   .b true, .empty⟩

/-- The inputs rejected by the guard of validateMessage: falsy values (the
empty cell, false, the empty string) and truthy non-strings (Dates, true). -/
def invalidMsgInput : Cell → Bool
  | .s t => t.isEmpty
  | _ => true

-- ===========================================================================
-- THEOREMS
-- ===========================================================================

theorem checkRateLimit_snd (now : DateRec) (c : Cache) :
    (checkRateLimit now c).2 = c := by
  unfold checkRateLimit
  dsimp only
  split
  · rfl
  · split <;> rfl

theorem hasSuspicious_iff_patterns (m : List Char) :
    (hasSuspiciousPatterns m).hasSuspicious
      = !(hasSuspiciousPatterns m).patterns.isEmpty := by
  unfold hasSuspiciousPatterns
  split <;> rfl

theorem hasRequiredKeywords_nil :
    (hasRequiredKeywords ([] : List Char)).hasRequired = false := by decide

/-- C2: the claim says the row identified by the currentRowIndex argument
passed by the orchestrator is excluded from the duplicate comparison, so an
entry can never be flagged as a duplicate of itself.  It is refuted on the
code: the orchestrator passes the data index i of the entry (line 1419), but
the detector skips index currentRowIndex + 1 (line 525), whose doc comment
expects a zero-based index excluding the header.  On a sheet whose only entry
is the row at data index 1, the call the orchestrator makes compares the
entry against its own row and reports a duplicate, and the pipeline blocks
the entry as a duplicate of itself. -/
theorem claim_c2_self_row_compared :
    (detectDuplicateContent "test zeitslot".toList [hdrRow, c2row] 1 dupNowEx).isDuplicate
        = true
      ∧ (processRow nowEx dupNowEx nowEx [hdrRow, c2row] 1 [] true).1.isDupBlocked
        = true := by
  constructor
  · decide
  · decide

/-- C5: the claim says an unparseable Last Sent value (including text
prefixed BLOCKED: or RATE_LIMITED:) is treated as absent, so an every-minute
entry with such a value is due.  It is refuted on the code: only the ERROR:
prefix is reset to null (line 1324); any other unparseable text goes through
new Date, which yields a truthy Invalid Date, and the every-minute rule
(line 1391) then tests NaN >= 60000, which is false, so the entry is not due.
With a genuinely absent Last Sent the same entry is due and sends. -/
theorem claim_c5_blocked_lastsent_not_due :
    (processRow nowEx dupNowEx nowEx [hdrRow, c5row] 1 [] true).1 = .notDue
      ∧ (processRow nowEx dupNowEx nowEx [hdrRow, c5rowEmpty] 1 [] true).1 = .sent := by
  constructor
  · decide
  · decide

/-- C3 counterexample: the message consisting only of a bit.ly URL contains a
URL whose extracted domain is bit.ly, yet validateMessage rejects it at the
required-keyword gate, with empty blockedDomains rather than the claimed
singleton bit.ly. -/
theorem claim_c3_counterexample :
    ((extractUrls "bit.ly/abc".toList).any
        (fun u => extractDomain u == "bit.ly".toList)) = true
      ∧ (validateMessage (.s "bit.ly/abc".toList)).blockedDomains ≠ ["bit.ly".toList]
      ∧ (validateMessage (.s "bit.ly/abc".toList)).reason
        = "Message does not contain any required keywords. Expected keywords include: test, montag, montagtontag, tontag, glasiertag...".toList := by
  refine ⟨by decide, by decide, by decide⟩

/-- C4 counterexample: a message with one clean URL, excessive capitalization
and excessive punctuation — two distinct heuristic hits — is still accepted
by validateMessage, because only hits of the suspicious-pattern check count
toward the two-hit threshold. -/
theorem claim_c4_counterexample :
    hasExcessiveCaps "TEST AAAA BBBB a.bc !!!".toList = true
      ∧ hasExcessivePunctuation "TEST AAAA BBBB a.bc !!!".toList = true
      ∧ (validateMessage (.s "TEST AAAA BBBB a.bc !!!".toList)).foundUrls ≠ []
      ∧ (validateMessage (.s "TEST AAAA BBBB a.bc !!!".toList)).isValid = true := by
  refine ⟨by decide, by decide, by decide, by decide⟩

/-- C9 counterexample: the message test passes validation with zero URLs; the
required-keyword finding was recorded during the keyword check, but the
returned verdict carries an empty details list. -/
theorem claim_c9_counterexample :
    (hasRequiredKeywords "test".toList).hasRequired = true
      ∧ (validateMessage (.s "test".toList)).isValid = true
      ∧ (validateMessage (.s "test".toList)).validationDetails = [] := by
  refine ⟨by decide, by decide, by decide⟩

/-- C10: for every input that is empty, null or not a string, validateMessage
returns the fixed invalid verdict with reason Empty or invalid message and
empty URL, domain and details lists; and the orchestrator skips a row with an
empty message cell before validation is ever reached. -/
theorem claim_c10_empty_invalid :
    (∀ c : Cell, invalidMsgInput c = true →
      validateMessage c =
        { isValid := false, reason := "Empty or invalid message".toList,
          foundUrls := [], blockedDomains := [], validationDetails := [] })
    ∧ (∀ (now dupNow rlNow : DateRec) (data : List Row) (i : Nat) (cache : Cache)
        (sendOk : Bool),
        (data.getD i default).dtCell.truthy = true →
        (data.getD i default).msgCell = .empty →
        (processRow now dupNow rlNow data i cache sendOk).1 = .skippedDisabledOrEmpty) := by
  constructor
  · intro c h
    match c with
    | .empty => rfl
    | .b v => rfl
    | .d dt => rfl
    | .s t =>
      have h2 : t.isEmpty = true := h
      simp [validateMessage, h2]
  · intro now dupNow rlNow data i cache sendOk hdt hmsg
    unfold processRow
    dsimp only
    rw [hdt, hmsg]
    rfl

/-- C6: for every rule variant, when the parsed Last Sent is a valid date
whose calendar components down to the minute agree with the evaluation
instant, the entry is skipped by the minute-level duplicate guard before any
recurrence rule is evaluated: the row outcome is the guard skip whatever the
repeat text, the scheduled instant, the other rows, the cache, and the
transport answer. -/
theorem claim_c6_minute_guard (now dupNow rlNow : DateRec) (data : List Row)
    (i : Nat) (cache : Cache) (sendOk : Bool) (t : DateRec)
    (hdt : (data.getD i default).dtCell.truthy = true)
    (hmsg : (data.getD i default).msgCell.truthy = true)
    (hen : isEnabledCell (data.getD i default).enCell = true)
    (hls : parseLastSent (data.getD i default).lastCell = some (some t))
    (hy : t.year = now.year) (hmo : t.month = now.month) (hd : t.day = now.day)
    (hh : t.hour = now.hour) (hmi : t.minute = now.minute) :
    (processRow now dupNow rlNow data i cache sendOk).1 = .skippedSameMinute := by
  have hg : minuteGuardHit now (parseLastSent (data.getD i default).lastCell) = true := by
    rw [hls]
    unfold minuteGuardHit mkDate5
    simp [jsGetTime, jsYear, jsMonth, jsDayOfMonth, jsHours, jsMinutes, jEq,
      hy, hmo, hd, hh, hmi]
  unfold processRow
  dsimp only
  rw [hdt, hmsg, hen, hg]
  rfl

/-- C6 witness: a concrete daily entry whose Last Sent is the same minute as
the evaluation instant is skipped by the guard. -/
theorem claim_c6_minute_guard_witness :
    (processRow nowEx dupNowEx nowEx
        [hdrRow, ⟨.d ⟨2025, 5, 2, 12, 5, 0, 0⟩, .s "test".toList, .s "daily".toList,
          .b true, .d ⟨2025, 5, 2, 12, 5, 0, 0⟩⟩] 1 [] true).1
      = .skippedSameMinute :=
  claim_c6_minute_guard nowEx dupNowEx nowEx
    [hdrRow, ⟨.d ⟨2025, 5, 2, 12, 5, 0, 0⟩, .s "test".toList, .s "daily".toList,
      .b true, .d ⟨2025, 5, 2, 12, 5, 0, 0⟩⟩] 1 [] true ⟨2025, 5, 2, 12, 5, 0, 0⟩
    (by decide) (by decide) (by decide) (by decide)
    (by decide) (by decide) (by decide) (by decide) (by decide)

/-- C1: the decision of the main loop refines the pipeline of the spec: for
every input, the outcome of the translated source loop body equals the staged
decision skip-if-disabled-or-empty, then Schedule Evaluator (minute guard
then recurrence rule), then Duplicate Detector if due, then Content Validator
if not duplicate, then Rate Limiter check if valid, sending only when all
four stages pass, with the first failing stage supplying the block reason. -/
theorem claim_c1_pipeline_order (now dupNow rlNow : DateRec) (data : List Row)
    (i : Nat) (cache : Cache) (sendOk : Bool) :
    (processRow now dupNow rlNow data i cache sendOk).1
      = specDecide now dupNow rlNow data i cache sendOk := by
  unfold processRow specDecide specEntryActive specIsDue
  dsimp only
  generalize data.getD i default = row
  cases hdt : row.dtCell.truthy <;> try rfl
  cases hm : row.msgCell.truthy <;> cases he : isEnabledCell row.enCell <;> try rfl
  cases hg : minuteGuardHit now (parseLastSent row.lastCell) <;> try rfl
  cases hs : shouldSendOf now (setSec0 (cellToDate row.dtCell))
    (repeatOf row.repCell) (parseLastSent row.lastCell) <;> try rfl
  cases hmc : row.msgCell <;> dsimp only <;> try rfl
  rename_i mt
  cases hdup : (detectDuplicateContent mt data (Int.ofNat i) dupNow).isDuplicate <;> try rfl
  cases hv : (validateMessage (.s mt)).isValid <;> try rfl
  cases hrl : (checkRateLimit rlNow cache).1.isAllowed <;> try rfl
  cases sendOk <;> rfl

theorem onetimeRep_cmp (rep : List Char)
    (h : rep = [] ∨ rep = "don\x27t".toList ∨ rep = "don\x27t repeat".toList) :
    (rep == [] || rep == "don\x27t".toList || rep == "don\x27t repeat".toList) = true
    ∧ (rep == "every minute".toList) = false
    ∧ (rep == "daily".toList) = false
    ∧ (rep == "weekly".toList) = false
    ∧ (rep == "monthly".toList) = false
    ∧ (rep == "yearly".toList) = false
    ∧ (rep == "every 2 days".toList) = false
    ∧ (rep == "every 3 days".toList) = false
    ∧ (rep == "every 7 days".toList) = false
    ∧ (rep == "every 14 days".toList) = false
    ∧ (rep == "monday".toList) = false
    ∧ (rep == "tuesday".toList) = false
    ∧ (rep == "wednesday".toList) = false
    ∧ (rep == "thursday".toList) = false
    ∧ (rep == "friday".toList) = false
    ∧ (rep == "saturday".toList) = false
    ∧ (rep == "sunday".toList) = false := by
  rcases h with h | h | h <;> subst h <;> decide

/-- C7: for every entry whose repeat text normalizes (lowercase, trimmed) to
the one-time spellings — empty, dont, or dont repeat — isDue (the shouldSend
rule of lines 1387-1412) holds exactly when the scheduled instant has the
same calendar year, month and day and the same hour and minute as the
normalized evaluation instant, for every value of the parsed Last Sent
state. -/
theorem claim_c7_onetime_isdue (now s : DateRec) (repRaw : List Char)
    (ls : Option JSDate)
    (hrep : trimStr (lowerStr repRaw) = []
      ∨ trimStr (lowerStr repRaw) = "don\x27t".toList
      ∨ trimStr (lowerStr repRaw) = "don\x27t repeat".toList) :
    shouldSendOf now (some s) repRaw ls = true ↔
      (s.year = now.year ∧ s.month = now.month ∧ s.day = now.day
        ∧ s.hour = now.hour ∧ s.minute = now.minute) := by
  obtain ⟨h1, h2, h3, h4, h5, h6, h7, h8, h9, h10, h11, h12, h13, h14, h15, h16, h17⟩ :=
    onetimeRep_cmp (trimStr (lowerStr repRaw)) hrep
  unfold shouldSendOf
  dsimp only
  rw [h1, h2, h3, h4, h5, h6, h7, h8, h9, h10, h11, h12, h13, h14, h15, h16, h17]
  simp only [Bool.false_and, Bool.or_false, Bool.false_or, Bool.true_and,
    Bool.and_eq_true, jsYear, jsMonth, jsDayOfMonth, jsHours, jsMinutes,
    Option.map_some', jEq, decide_eq_true_eq]
  omega

/-- C7 witness: a one-time entry at the matching instant is due even though
its Last Sent records an earlier send, and the dont-repeat spelling behaves
identically. -/
theorem claim_c7_onetime_isdue_witness :
    shouldSendOf nowEx (some ⟨2025, 5, 2, 12, 5, 0, 0⟩) []
        (some (some ⟨2025, 5, 1, 12, 5, 0, 0⟩)) = true
      ∧ shouldSendOf nowEx (some ⟨2025, 5, 2, 12, 5, 0, 0⟩)
          " Don\x27t Repeat ".toList none = true :=
  ⟨(claim_c7_onetime_isdue nowEx ⟨2025, 5, 2, 12, 5, 0, 0⟩ []
      (some (some ⟨2025, 5, 1, 12, 5, 0, 0⟩)) (Or.inl (by decide))).mpr (by decide),
   (claim_c7_onetime_isdue nowEx ⟨2025, 5, 2, 12, 5, 0, 0⟩
      " Don\x27t Repeat ".toList none (Or.inr (Or.inr (by decide)))).mpr (by decide)⟩

/-- C8: checkRateLimit never changes the cache; whenever the parsed count of
the current hour bucket is at least the hourly ceiling of three it refuses
with the reason citing the hourly ceiling, whatever the day count; and the
per-row pipeline leaves the cache untouched unless the outcome is a
confirmed send (the increment operation runs only after responseData.ok). -/
theorem claim_c8_rate_limiter :
    (∀ (now : DateRec) (c : Cache), (checkRateLimit now c).2 = c)
    ∧ (∀ (now : DateRec) (c : Cache) (n : Int),
        bucketCount c (hourKeyOf now) = some n → MAX_MESSAGES_PER_HOUR ≤ n →
        (checkRateLimit now c).1.isAllowed = false
          ∧ (checkRateLimit now c).1.reason
            = "Rate limit exceeded: ".toList ++ intToChars n
              ++ " messages sent this hour (limit: 3)".toList)
    ∧ (∀ (now dupNow rlNow : DateRec) (data : List Row) (i : Nat) (cache : Cache)
        (sendOk : Bool),
        (processRow now dupNow rlNow data i cache sendOk).1 ≠ .sent →
        (processRow now dupNow rlNow data i cache sendOk).2 = cache) := by
  refine ⟨checkRateLimit_snd, ?_, ?_⟩
  · intro now c n hcount hge
    unfold checkRateLimit
    dsimp only
    rw [hcount]
    have : jGe (some n) MAX_MESSAGES_PER_HOUR = true := by
      simp [jGe, hge]
    rw [this]
    exact ⟨rfl, rfl⟩
  · intro now dupNow rlNow data i cache sendOk
    unfold processRow
    dsimp only
    split
    · intro; rfl
    split
    · intro; rfl
    split
    · intro; rfl
    split
    · intro; rfl
    split
    · split
      · intro; rfl
      split
      · intro; rfl
      split
      · intro h; exact checkRateLimit_snd rlNow cache
      split
      · intro h; exact absurd rfl h
      · intro; exact checkRateLimit_snd rlNow cache
    · intro; rfl

/-- C8 witness: at a cache whose hour bucket holds three, checking is
refused, the cache is unchanged by the check, and a rate-limited row leaves
the cache untouched. -/
theorem claim_c8_rate_limiter_witness :
    (checkRateLimit nowEx [(hourKeyOf nowEx, "3".toList, 3600)]).2
        = [(hourKeyOf nowEx, "3".toList, 3600)]
      ∧ (checkRateLimit nowEx [(hourKeyOf nowEx, "3".toList, 3600)]).1.isAllowed = false
      ∧ (processRow nowEx dupNowEx nowEx [hdrRow, c5rowEmpty] 1
          [(hourKeyOf nowEx, "3".toList, 3600)] true).2
        = [(hourKeyOf nowEx, "3".toList, 3600)] :=
  ⟨claim_c8_rate_limiter.1 nowEx [(hourKeyOf nowEx, "3".toList, 3600)],
   (claim_c8_rate_limiter.2.1 nowEx [(hourKeyOf nowEx, "3".toList, 3600)] 3
     (by decide) (by decide)).1,
   claim_c8_rate_limiter.2.2 nowEx dupNowEx nowEx [hdrRow, c5rowEmpty] 1
     [(hourKeyOf nowEx, "3".toList, 3600)] true (by decide)⟩

theorem length_le_of_not_isEmpty {α : Type} (m : List α) (h : m ≠ []) : m.isEmpty = false := by
  cases m with
  | nil => exact absurd rfl h
  | cons a t => rfl

theorem ne_nil_of_hasRequired (m : List Char)
    (hk : (hasRequiredKeywords m).hasRequired = true) : m ≠ [] := by
  intro h
  rw [h, hasRequiredKeywords_nil] at hk
  exact absurd hk (by decide)

/-- Stepping validateMessage through the length, keyword and URL-count gates
for a message with a nonempty extracted URL list: what remains is the domain
blacklist check followed (strict mode being off) by the trailing spam
checks. -/
theorem validateMessage_url_stage (m : List Char) (us : List (List Char))
    (hk : (hasRequiredKeywords m).hasRequired = true)
    (hlen : m.length ≤ MAX_MESSAGE_LENGTH)
    (hurls : extractUrls m = us)
    (hcount : us.length ≤ MAX_URLS_PER_MESSAGE)
    (hne : us ≠ []) :
    validateMessage (.s m)
      = (let domains := us.map extractDomain
         let blocked := blockedOf domains
         let d2 := [kwDetail (hasRequiredKeywords m)]
           ++ (if us.length > MAX_SUSPICIOUS_URLS then
                ["Suspicious number of URLs: ".toList ++ natToChars us.length] else [])
         if !blocked.isEmpty then
           { isValid := false
             reason := "Blocked domain(s) detected: ".toList ++ joinComma blocked
             foundUrls := us, blockedDomains := blocked
             validationDetails := d2 ++ ["Blocked domains: ".toList ++ joinComma blocked] }
         else validateBody.validateUrlTail m us domains d2) := by
  have hmne : m ≠ [] := ne_nil_of_hasRequired m hk
  have hmE : m.isEmpty = false := length_le_of_not_isEmpty m hmne
  have husE : us.isEmpty = false := length_le_of_not_isEmpty us hne
  unfold validateMessage
  dsimp only
  rw [hmE]
  unfold validateBody
  dsimp only
  rw [hurls, husE, hk]
  rw [if_neg (by omega : ¬ m.length > MAX_MESSAGE_LENGTH)]
  rw [if_neg (by omega : ¬ us.length > MAX_URLS_PER_MESSAGE)]
  simp only [REQUIRE_KEYWORD_VALIDATION, STRICT_MODE, Bool.not_true, Bool.and_false,
    Bool.false_and, Bool.false_eq_true, if_false, ite_false, Bool.not_false,
    List.singleton_append, ite_true, if_true, reduceIte]

/-- C3 counterexample forces only the precondition that the message passes
the gates that run before the URL checks; C3 amended: for every message that
passes the length and required-keyword gates and whose extracted URL list is
a single URL with domain exactly bit.ly, validateMessage is invalid with
blockedDomains the singleton bit.ly and the blocked-domain reason, whatever
the capitalization of the message. -/
theorem claim_c3_bitly_blocked (m u : List Char)
    (hk : (hasRequiredKeywords m).hasRequired = true)
    (hlen : m.length ≤ MAX_MESSAGE_LENGTH)
    (hurls : extractUrls m = [u])
    (hdom : extractDomain u = "bit.ly".toList) :
    (validateMessage (.s m)).isValid = false
      ∧ (validateMessage (.s m)).blockedDomains = ["bit.ly".toList]
      ∧ (validateMessage (.s m)).reason
        = "Blocked domain(s) detected: bit.ly".toList := by
  rw [validateMessage_url_stage m [u] hk hlen hurls (by simp [MAX_URLS_PER_MESSAGE]) (by simp)]
  dsimp only
  rw [List.map_singleton, hdom]
  refine ⟨rfl, rfl, rfl⟩

/-- C3 witness: a concrete message that carries a required keyword and a
bit.ly link is blocked with the singleton blockedDomains. -/
theorem claim_c3_bitly_blocked_witness :
    (validateMessage (.s "test bit.ly/x".toList)).isValid = false
      ∧ (validateMessage (.s "test bit.ly/x".toList)).blockedDomains = ["bit.ly".toList]
      ∧ (validateMessage (.s "test bit.ly/x".toList)).reason
        = "Blocked domain(s) detected: bit.ly".toList :=
  claim_c3_bitly_blocked "test bit.ly/x".toList "https://bit.ly/x".toList
    (by decide) (by decide) (by decide) (by decide)

/-- C4 amended: for a message whose URLs pass the blacklist (and, strict mode
being off, the vacuous allow-list), the caps and punctuation heuristics are
always non-fatal — recorded in the details only — and the verdict is invalid
exactly when the suspicious-pattern check alone accumulates two or more hits,
with the combined reason; a single hit of any heuristic is recorded but does
not block. -/
theorem claim_c4_pattern_threshold (m : List Char) (us : List (List Char))
    (hk : (hasRequiredKeywords m).hasRequired = true)
    (hlen : m.length ≤ MAX_MESSAGE_LENGTH)
    (hurls : extractUrls m = us)
    (hcount : us.length ≤ MAX_URLS_PER_MESSAGE)
    (hne : us ≠ [])
    (hblocked : blockedOf (us.map extractDomain) = []) :
    (validateMessage (.s m)).isValid
        = decide ((hasSuspiciousPatterns m).patterns.length < 2)
      ∧ (2 ≤ (hasSuspiciousPatterns m).patterns.length →
          (validateMessage (.s m)).reason
            = "Multiple suspicious patterns detected: ".toList
              ++ joinSemi (hasSuspiciousPatterns m).patterns)
      ∧ (hasExcessiveCaps m = true →
          capsDetail ∈ (validateMessage (.s m)).validationDetails)
      ∧ (hasExcessivePunctuation m = true →
          punctDetail ∈ (validateMessage (.s m)).validationDetails)
      ∧ (∀ p ∈ (hasSuspiciousPatterns m).patterns,
          p ∈ (validateMessage (.s m)).validationDetails) := by
  rw [validateMessage_url_stage m us hk hlen hurls hcount hne]
  dsimp only
  rw [hblocked]
  simp only [List.isEmpty_nil, Bool.not_true, Bool.false_eq_true, if_false, ite_false]
  unfold validateBody.validateUrlTail
  dsimp only
  by_cases h2 : 2 ≤ (hasSuspiciousPatterns m).patterns.length
  · have hsus : (hasSuspiciousPatterns m).hasSuspicious = true := by
      rw [hasSuspicious_iff_patterns]
      cases hp : (hasSuspiciousPatterns m).patterns with
      | nil => rw [hp] at h2; simp at h2
      | cons a t => rfl
    rw [hsus, decide_eq_true h2]
    simp only [Bool.true_and, ite_true, if_true, reduceIte]
    refine ⟨?_, fun _ => trivial, ?_, ?_, ?_⟩
    · exact (decide_eq_false (by omega)).symm
    · intro hc; simp [hc, List.mem_append]
    · intro hc; simp [hc, List.mem_append]
    · intro p hp; simp [List.mem_append, hp]
  · have hcond : ((hasSuspiciousPatterns m).hasSuspicious
        && decide (2 ≤ (hasSuspiciousPatterns m).patterns.length)) = false := by
      rw [decide_eq_false h2, Bool.and_false]
    rw [hcond]
    simp only [Bool.false_eq_true, if_false, ite_false]
    refine ⟨(decide_eq_true (by omega)).symm, fun h => absurd h h2, ?_, ?_, ?_⟩
    · intro hc; simp [hc, List.mem_append]
    · intro hc; simp [hc, List.mem_append]
    · intro p hp
      have hsus : (hasSuspiciousPatterns m).hasSuspicious = true := by
        rw [hasSuspicious_iff_patterns]
        cases hq : (hasSuspiciousPatterns m).patterns with
        | nil => rw [hq] at hp; exact absurd hp (by simp)
        | cons a t => rfl
      simp [hsus, List.mem_append, hp]

/-- C4 witness: a clean single-URL message with a caps hit and a punctuation
hit but no suspicious-pattern hit is accepted, with both hits recorded. -/
theorem claim_c4_pattern_threshold_witness :
    (validateMessage (.s "TEST AAAA BBBB a.bc !!!".toList)).isValid
        = decide ((hasSuspiciousPatterns "TEST AAAA BBBB a.bc !!!".toList).patterns.length < 2)
      ∧ capsDetail ∈ (validateMessage (.s "TEST AAAA BBBB a.bc !!!".toList)).validationDetails
      ∧ punctDetail ∈ (validateMessage (.s "TEST AAAA BBBB a.bc !!!".toList)).validationDetails :=
  ⟨(claim_c4_pattern_threshold "TEST AAAA BBBB a.bc !!!".toList
      ["https://a.bc".toList] (by decide) (by decide) (by decide) (by decide)
      (by simp) (by decide)).1,
   (claim_c4_pattern_threshold "TEST AAAA BBBB a.bc !!!".toList
      ["https://a.bc".toList] (by decide) (by decide) (by decide) (by decide)
      (by simp) (by decide)).2.2.1 (by decide),
   (claim_c4_pattern_threshold "TEST AAAA BBBB a.bc !!!".toList
      ["https://a.bc".toList] (by decide) (by decide) (by decide) (by decide)
      (by simp) (by decide)).2.2.2.1 (by decide)⟩

theorem hasSuspicious_of_mem (m p : List Char)
    (hp : p ∈ (hasSuspiciousPatterns m).patterns) :
    (hasSuspiciousPatterns m).hasSuspicious = true := by
  rw [hasSuspicious_iff_patterns]
  cases hq : (hasSuspiciousPatterns m).patterns with
  | nil => rw [hq] at hp; exact absurd hp (by simp)
  | cons a t => rfl

set_option maxHeartbeats 1000000 in
/-- C9 amended: the details list retains every finding recorded by the checks
that ran before the return on every return path, pass or fail, except the
success verdict for a message without URLs, which returns a fresh empty list.
Part one: once the length and keyword gates pass, every verdict other than
the zero-URL success carries the found-required-keywords finding, whether it
passes or fails.  Part two: the zero-URL success verdict has empty details.
Part three: the suspicious-URL-count finding, once recorded, appears in every
verdict, blocked or passing.  Part four: on the paths reaching the trailing
spam checks, the caps, punctuation and suspicious-pattern findings appear in
the details whether the verdict passes or fails. -/
theorem claim_c9_details_accumulation :
    (∀ m : List Char,
      (hasRequiredKeywords m).hasRequired = true →
      m.length ≤ MAX_MESSAGE_LENGTH →
      ((validateMessage (.s m)).isValid = true ∧ (validateMessage (.s m)).foundUrls = [])
        ∨ kwDetail (hasRequiredKeywords m) ∈ (validateMessage (.s m)).validationDetails)
    ∧ (∀ m : List Char,
      (validateMessage (.s m)).isValid = true →
      (validateMessage (.s m)).foundUrls = [] →
      (validateMessage (.s m)).validationDetails = [])
    ∧ (∀ m : List Char,
      (hasRequiredKeywords m).hasRequired = true →
      m.length ≤ MAX_MESSAGE_LENGTH →
      (extractUrls m).length ≤ MAX_URLS_PER_MESSAGE →
      (extractUrls m).length > MAX_SUSPICIOUS_URLS →
      "Suspicious number of URLs: ".toList ++ natToChars (extractUrls m).length
        ∈ (validateMessage (.s m)).validationDetails)
    ∧ (∀ m : List Char,
      (hasRequiredKeywords m).hasRequired = true →
      m.length ≤ MAX_MESSAGE_LENGTH →
      (extractUrls m).length ≤ MAX_URLS_PER_MESSAGE →
      extractUrls m ≠ [] →
      blockedOf ((extractUrls m).map extractDomain) = [] →
      (hasExcessiveCaps m = true →
        capsDetail ∈ (validateMessage (.s m)).validationDetails)
      ∧ (hasExcessivePunctuation m = true →
        punctDetail ∈ (validateMessage (.s m)).validationDetails)
      ∧ (∀ p ∈ (hasSuspiciousPatterns m).patterns,
        p ∈ (validateMessage (.s m)).validationDetails)) := by
  refine ⟨?_, ?_, ?_, ?_⟩
  · -- part one: keyword-finding retention after the gates, on every path
    intro m hk hlen
    have hmne : m ≠ [] := ne_nil_of_hasRequired m hk
    have hmE : m.isEmpty = false := length_le_of_not_isEmpty m hmne
    unfold validateMessage
    dsimp only
    rw [if_neg (by simp [hmE])]
    unfold validateBody
    dsimp only
    split
    · rename_i hgt; exact absurd hgt (by omega)
    split
    · rename_i hkw
      rw [hk] at hkw
      exact Bool.noConfusion hkw
    split
    · right
      simp only [REQUIRE_KEYWORD_VALIDATION, reduceIte, List.mem_append,
        List.mem_singleton, List.mem_cons, eq_self_iff_true, true_or, or_true]
    split
    · -- zero-URL branches
      split
      · right
        simp only [REQUIRE_KEYWORD_VALIDATION, reduceIte, List.mem_append,
          List.mem_singleton, List.mem_cons, eq_self_iff_true, true_or, or_true]
      split
      · right
        simp only [REQUIRE_KEYWORD_VALIDATION, reduceIte, List.mem_append,
          List.mem_singleton, List.mem_cons, eq_self_iff_true, true_or, or_true]
      split
      · right
        simp only [REQUIRE_KEYWORD_VALIDATION, reduceIte, List.mem_append,
          List.mem_singleton, List.mem_cons, eq_self_iff_true, true_or, or_true]
      · left; exact ⟨rfl, rfl⟩
    · -- branches with at least one URL
      split
      · right
        simp only [REQUIRE_KEYWORD_VALIDATION, reduceIte, List.mem_append,
          List.mem_singleton, List.mem_cons, eq_self_iff_true, true_or, or_true]
      · simp only [STRICT_MODE, Bool.false_and, Bool.false_eq_true, if_false, ite_false]
        unfold validateBody.validateUrlTail
        dsimp only
        split <;> right <;>
          simp only [REQUIRE_KEYWORD_VALIDATION, reduceIte, List.mem_append,
            List.mem_singleton, List.mem_cons, eq_self_iff_true, true_or, or_true]
  · -- part two: the zero-URL success verdict returns empty details
    intro m
    unfold validateMessage
    dsimp only
    by_cases hm : m.isEmpty = true
    · rw [if_pos hm]
      exact fun h => Bool.noConfusion h
    · rw [if_neg hm]
      unfold validateBody
      dsimp only
      split
      · exact fun h => Bool.noConfusion h
      split
      · exact fun h => Bool.noConfusion h
      split
      · exact fun h => Bool.noConfusion h
      split
      · split
        · exact fun h => Bool.noConfusion h
        split
        · exact fun h => Bool.noConfusion h
        split
        · exact fun h => Bool.noConfusion h
        · exact fun _ _ => rfl
      · rename_i husE
        have hne : extractUrls m ≠ [] := by
          intro h
          rw [h] at husE
          exact husE rfl
        split
        · exact fun h => Bool.noConfusion h
        · simp only [STRICT_MODE, Bool.false_and, Bool.false_eq_true, if_false, ite_false]
          unfold validateBody.validateUrlTail
          dsimp only
          split
          · exact fun h => Bool.noConfusion h
          · exact fun _ hu => absurd hu hne
  · -- part three: the suspicious-URL-count finding is retained everywhere
    intro m hk hlen hcount hgt
    have hne : extractUrls m ≠ [] := by
      intro h
      rw [h] at hgt
      exact absurd hgt (by simp [MAX_SUSPICIOUS_URLS])
    rw [validateMessage_url_stage m (extractUrls m) hk hlen rfl hcount hne]
    dsimp only
    rw [if_pos hgt]
    split
    · simp only [List.mem_append, List.mem_singleton, List.mem_cons,
        eq_self_iff_true, true_or, or_true]
    · unfold validateBody.validateUrlTail
      dsimp only
      split <;>
        simp only [List.mem_append, List.mem_singleton, List.mem_cons,
          eq_self_iff_true, true_or, or_true]
  · -- part four: trailing-check findings retained whether blocked or passing
    intro m hk hlen hcount hne hblocked
    rw [validateMessage_url_stage m (extractUrls m) hk hlen rfl hcount hne]
    dsimp only
    rw [hblocked]
    simp only [List.isEmpty_nil, Bool.not_true, Bool.false_eq_true, if_false, ite_false]
    unfold validateBody.validateUrlTail
    dsimp only
    split <;>
      exact ⟨fun hc => by
          rw [if_pos hc]
          exact List.mem_append_left _ (List.mem_append_left _
            (List.mem_append_right _ (List.mem_singleton_self _))),
        fun hc => by
          rw [if_pos hc]
          exact List.mem_append_left _
            (List.mem_append_right _ (List.mem_singleton_self _)),
        fun p hp => by
          rw [if_pos (hasSuspicious_of_mem m p hp)]
          exact List.mem_append_right _ hp⟩

/-- C9 witness: the keyword finding survives into a blocked-domain failure
verdict; the passing zero-URL message has empty details; the URL-count
finding survives into a passing two-URL verdict; and a punctuation hit is
recorded in a passing one-URL verdict. -/
theorem claim_c9_details_accumulation_witness :
    kwDetail (hasRequiredKeywords "test bit.ly/x".toList)
        ∈ (validateMessage (.s "test bit.ly/x".toList)).validationDetails
      ∧ (validateMessage (.s "test".toList)).validationDetails = []
      ∧ "Suspicious number of URLs: ".toList
          ++ natToChars (extractUrls "test a.bc b.cd".toList).length
        ∈ (validateMessage (.s "test a.bc b.cd".toList)).validationDetails
      ∧ punctDetail ∈ (validateMessage (.s "test a.bc !!!".toList)).validationDetails :=
  ⟨(claim_c9_details_accumulation.1 "test bit.ly/x".toList
      (by decide) (by decide)).resolve_left (by decide),
   claim_c9_details_accumulation.2.1 "test".toList (by decide) (by decide),
   claim_c9_details_accumulation.2.2.1 "test a.bc b.cd".toList
     (by decide) (by decide) (by decide) (by decide),
   (claim_c9_details_accumulation.2.2.2 "test a.bc !!!".toList
     (by decide) (by decide) (by decide) (by decide) (by decide)).2.1 (by decide)⟩

/-- C10 witness: the guard verdict at the concrete empty string, and the
orchestrator skip at a concrete one-row sheet whose message cell is empty. -/
theorem claim_c10_empty_invalid_witness :
    validateMessage (.s []) =
        { isValid := false, reason := "Empty or invalid message".toList,
          foundUrls := [], blockedDomains := [], validationDetails := [] }
      ∧ (processRow nowEx dupNowEx nowEx
          [hdrRow, ⟨.d nowEx, .empty, .s "daily".toList, .b true, .empty⟩] 1 [] true).1
        = .skippedDisabledOrEmpty :=
  ⟨claim_c10_empty_invalid.1 (.s []) (by decide),
   claim_c10_empty_invalid.2 nowEx dupNowEx nowEx
     [hdrRow, ⟨.d nowEx, .empty, .s "daily".toList, .b true, .empty⟩] 1 [] true
     (by decide) (by decide)⟩

end TgBot
